import Mathlib

/-!
Verification of the `pkg-index` static vanity-import page generator
(`cmd/generator/main.go`).

The development shallowly embeds the generator: Go strings become Lean
`String`s (modelled at rune level), the GitHub provider becomes an explicit
environment of fetch results, and the `main` loop becomes a pure function
from that environment to the final package registry, the trace of
insert/render events, and the rendered index document.
-/

/-- Whitespace test matching Go's `unicode.IsSpace` (the rune classes Go
treats as white space: ASCII space characters plus the Unicode space
separators Go recognises). -/
def goIsSpace (c : Char) : Bool :=
  c == ' ' || c == '\t' || c == '\n' || c == '\x0b' || c == '\x0c' || c == '\r' ||
  c == '\x85' || c == '\xa0' || c == '\u1680' ||
  ('\u2000' ≤ c && c ≤ '\u200A') ||
  c == '\u2028' || c == '\u2029' || c == '\u202F' || c == '\u205F' || c == '\u3000'

/-- Check that the first list is an initial segment of the second,
character by character. -/
def charsStart : List Char → List Char → Bool
  | [], _ => true
  | _ :: _, [] => false
  | p :: ps, s :: ss => p == s && charsStart ps ss

/-- Model of Go `strings.HasPrefix s p`. -/
def goStartsWith (s p : String) : Bool :=
  charsStart p.toList s.toList

/-- Model of Go `strings.HasSuffix s p`. -/
def goEndsWith (s p : String) : Bool :=
  charsStart p.toList.reverse s.toList.reverse

/-- Model of Go `strings.TrimPrefix s p`: drop the leading occurrence of
`p` when present, otherwise return `s` unchanged. -/
def goTrimLeading (s p : String) : String :=
  if goStartsWith s p then String.mk (s.toList.drop p.toList.length) else s

/-- Model of Go `strings.TrimSpace`: drop leading and trailing white
space. -/
def goTrimSpace (s : String) : String :=
  String.mk (((s.toList.dropWhile goIsSpace).reverse.dropWhile goIsSpace).reverse)

/-- Split a character list at every newline character; models Go
`strings.Split s "\n"` (which yields one piece more than the number of
separators, and `[""]` on empty input). -/
def splitCharsOnNL : List Char → List (List Char)
  | [] => [[]]
  | c :: rest =>
    if c == '\n' then [] :: splitCharsOnNL rest
    else
      match splitCharsOnNL rest with
      | [] => [[c]]
      | h :: t => (c :: h) :: t

/-- Model of Go `strings.Split s "\n"`. -/
def goSplitNewline (s : String) : List String :=
  (splitCharsOnNL s.toList).map String.mk

/-- Backtracking step of `path.Clean`'s `..` handling: starting from the
most recently removed character, keep removing characters from the
reversed output buffer while the buffer is longer than the `dotdot` mark
and the removed character is not a separator. -/
def popElemRev (dotdot : Nat) (last : Char) : List Char → List Char
  | [] => []
  | c :: rest =>
    if (c :: rest).length > dotdot && last != '/' then popElemRev dotdot c rest
    else c :: rest

/-- Main loop of Go `path/filepath.Clean` (Unix rules), carrying the
remaining input, the output buffer in reverse, and the `dotdot` mark. The
leading `Nat` is recursion fuel: every step of the Go loop consumes at
least one input character, so fuel equal to the input length makes the
fuel-exhausted branch unreachable and the function equal to the loop. -/
def cleanLoop (rooted : Bool) : Nat → List Char → List Char → Nat → List Char
  | _, [], out, _ => out
  | 0, _, out, _ => out
  | fuel + 1, c :: rest, out, dotdot =>
    if c == '/' then
      cleanLoop rooted fuel rest out dotdot
    else if c == '.' && (rest.isEmpty || rest.head? == some '/') then
      cleanLoop rooted fuel rest out dotdot
    else if c == '.' && rest.head? == some '.' &&
            (rest.tail.isEmpty || rest.tail.head? == some '/') then
      if out.length > dotdot then
        cleanLoop rooted fuel rest.tail
          (match out with
           | [] => []
           | d :: ds => popElemRev dotdot d ds) dotdot
      else if !rooted then
        let out2 := if out.length > 0 then '.' :: '.' :: '/' :: out else '.' :: '.' :: out
        cleanLoop rooted fuel rest.tail out2 out2.length
      else
        cleanLoop rooted fuel rest.tail out dotdot
    else
      let out1 := if (rooted && out.length != 1) || (!rooted && out.length != 0)
        then '/' :: out else out
      cleanLoop rooted fuel (rest.dropWhile (fun x => x != '/'))
        ((rest.takeWhile (fun x => x != '/')).reverse ++ (c :: out1)) dotdot

/-- Model of Go `path/filepath.Clean` for slash-separated paths. -/
def pathClean (path : String) : String :=
  if path == "" then "."
  else
    let cs := path.toList
    let rooted := cs.head? == some '/'
    let outRev := cleanLoop rooted cs.length cs (if rooted then ['/'] else [])
      (if rooted then 1 else 0)
    if outRev.length == 0 then "." else String.mk outRev.reverse

/-- Model of Go `path/filepath.Dir`: everything up to and including the
final separator, cleaned; `"."` when the path holds no separator. -/
def filepathDir (path : String) : String :=
  pathClean (String.mk ((path.toList.reverse.dropWhile (fun c => c != '/')).reverse))

/-- Model of Go `path/filepath.Join` on two elements: the elements joined
by a separator and cleaned, empty elements skipped. -/
def filepathJoin (a b : String) : String :=
  if a != "" then pathClean (a ++ "/" ++ b)
  else if b != "" then pathClean b
  else ""

/-- The organisation scanned, from `const orgName` in `main.go`. -/
def orgName : String := "blksails"

/-- The domain stripped from import paths to obtain output directories,
from `const baseDomain` in `main.go`. -/
def baseDomain : String := "pkg.blksails.net"

/-- The required module-identifier prefix, from `const basePackage` in
`main.go`. -/
def basePackage : String := "pkg.blksails.net"

/-- Scan lines for the first one whose trimmed form starts with
`"module "`; mirrors the loop body of `parseModuleName` in `main.go`. -/
def parseModuleNameLines : List String → String
  | [] => ""
  | line :: rest =>
    if goStartsWith (goTrimSpace line) "module " then
      goTrimSpace (goTrimLeading (goTrimSpace line) "module ")
    else parseModuleNameLines rest

/-- Model of `parseModuleName` in `main.go`: split the manifest text on
newlines and extract the identifier from the first `module` line. -/
def parseModuleName (content : String) : String :=
  parseModuleNameLines (goSplitNewline content)

/-- Metadata of one repository as delivered by the provider; mirrors the
fields of `github.Repository` that `main.go` reads (`GetName`,
`GetLanguage`, `GetHTMLURL`, `GetDescription`, with absent fields
delivered as the empty string, as the Go accessors do). -/
structure GoRepo where
  name : String
  language : String
  htmlURL : String
  description : String
deriving DecidableEq, Repr

/-- One entry of the repository's root content listing; mirrors the fields
of `github.RepositoryContent` read by `main.go` (`GetName`, `GetPath`,
`GetType`). The field `typ` stands for the Go accessor `GetType`. -/
structure ContentEntry where
  name : String
  path : String
  typ : String
deriving DecidableEq, Repr

/-- Everything the provider returns for one repository during a run:
the repository metadata, the root directory listing
(`GetContents(ctx, org, name, "")`; `none` models the error return), and
the manifest (`GetContents(ctx, org, name, "go.mod")` followed by
`GetContent()`; outer `none` models a fetch error, `some none` a decode
error, `some (some s)` the decoded text `s`). -/
structure RepoFetchResult where
  repo : GoRepo
  contents : Option (List ContentEntry)
  goModFetch : Option (Option String)
deriving DecidableEq, Repr

/-- The record type `PackageInfo` of `main.go`. -/
structure PackageInfo where
  ImportPath : String
  RepoURL : String
  Description : String
deriving DecidableEq, Repr

/-- The per-repository gate of `main.go` lines 50-75: language must equal
`"Go"`, the root directory listing and the manifest fetch+decode must
succeed, and the parsed module name must carry the `basePackage` prefix.
On success it yields the module name and the directory listing. -/
def resolveRepo (rf : RepoFetchResult) : Option (String × List ContentEntry) :=
  if rf.repo.language != "Go" then none
  else
    match rf.contents, rf.goModFetch with
    | some contents, some (some fileContent) =>
      let moduleName := parseModuleName fileContent
      if goStartsWith moduleName basePackage then some (moduleName, contents) else none
    | _, _ => none

/-- The sub-package record built for one `.go` file entry outside the
repository root, per `main.go` lines 95-110; `none` when the entry is not
a file, not a `.go` name, or lies in the root directory. -/
def subRecordOf? (moduleName url desc : String) (c : ContentEntry) : Option PackageInfo :=
  if c.typ == "file" && goEndsWith c.name ".go" then
    let dir := filepathDir c.path
    if dir == "." then none
    else some ⟨filepathJoin moduleName dir, url, desc⟩
  else none

/-- Path expansion for one qualifying repository: the root record (lines
84-92 of `main.go`) followed by one record per qualifying `.go` file entry
(lines 95-110), in listing order. -/
def expand (moduleName url desc : String) (contents : List ContentEntry) : List PackageInfo :=
  ⟨moduleName, url, desc⟩ :: contents.filterMap (subRecordOf? moduleName url desc)

/-- What a repository appends to the `packages` slice (the Registry):
exactly the root record when the gate passes (lines 78-82 of `main.go`),
nothing otherwise. Sub-package records are never appended. -/
def repoInserts (rf : RepoFetchResult) : List PackageInfo :=
  match resolveRepo rf with
  | none => []
  | some (moduleName, _) => [⟨moduleName, rf.repo.htmlURL, rf.repo.description⟩]

/-- The records passed to `generateHTML` for one repository, in program
order: the root record first, then the sub-package records. -/
def repoRendered (rf : RepoFetchResult) : List PackageInfo :=
  match resolveRepo rf with
  | none => []
  | some (moduleName, contents) =>
    expand moduleName rf.repo.htmlURL rf.repo.description contents

/-- Observable steps of the run, in program order: an append to the
`packages` slice, a `generateHTML` call with its success flag, and the
final `generateIndexHTML` call with its success flag. -/
inductive Event where
  | insert (rec : PackageInfo)
  | renderPage (rec : PackageInfo) (ok : Bool)
  | renderIndex (recs : List PackageInfo) (ok : Bool)
deriving DecidableEq, Repr

/-- Event trace of one loop iteration of `main.go`: nothing for a skipped
repository; for a qualifying one, the registry append followed by the
`generateHTML` calls for the root and each sub-package record.
`renderOk` models the filesystem sink: whether persisting a given record's
page succeeds (a failure is only logged, per lines 90-92 and 107-109). -/
def repoEvents (renderOk : PackageInfo → Bool) (rf : RepoFetchResult) : List Event :=
  match resolveRepo rf with
  | none => []
  | some (moduleName, contents) =>
    let pkgInfo : PackageInfo := ⟨moduleName, rf.repo.htmlURL, rf.repo.description⟩
    Event.insert pkgInfo ::
      (expand moduleName rf.repo.htmlURL rf.repo.description contents).map
        (fun r => Event.renderPage r (renderOk r))

/-- The `packages` slice accumulated across the whole repository loop
(line 47 and lines 78-82 of `main.go`). -/
def collectPackages : List RepoFetchResult → List PackageInfo
  | [] => []
  | rf :: rest => repoInserts rf ++ collectPackages rest

/-- Event trace of the whole repository loop. -/
def listEvents (renderOk : PackageInfo → Bool) : List RepoFetchResult → List Event
  | [] => []
  | rf :: rest => repoEvents renderOk rf ++ listEvents renderOk rest

/-- The records appended to the Registry, read off an event trace. -/
def insertedRecords : List Event → List PackageInfo
  | [] => []
  | Event.insert r :: es => r :: insertedRecords es
  | Event.renderPage _ _ :: es => insertedRecords es
  | Event.renderIndex _ _ :: es => insertedRecords es

/-- Model of Go `template.HTMLEscapeString` on one character. The
embedding applies it uniformly to every interpolated field, abstracting
`html/template`'s context-sensitive escaping; the escaping is a pure
character-by-character function, which is all the claims about the
renderers depend on. -/
def escapeChar (c : Char) : String :=
  if c == '<' then "&lt;"
  else if c == '>' then "&gt;"
  else if c == '&' then "&amp;"
  else if c == '\x22' then "&#34;"
  else if c == '\x27' then "&#39;"
  else String.mk [c]

/-- Escape a whole interpolated field. -/
def htmlEscape (s : String) : String :=
  String.join (s.toList.map escapeChar)

/-- The document produced by `generateHTML` in `main.go` for one record:
the import-page template instantiated at the record's fields. The
template mentions `ImportPath` and `RepoURL` only. -/
def generateHTMLDoc (pkg : PackageInfo) : String :=
  "<!DOCTYPE html>\n<html>\n<head>\n    <meta charset=\"utf-8\">\n    <meta name=\"go-import\" content=\"" ++
  htmlEscape pkg.ImportPath ++ " git " ++ htmlEscape pkg.RepoURL ++
  "\">\n    <meta name=\"go-source\" content=\"" ++
  htmlEscape pkg.ImportPath ++ " " ++ htmlEscape pkg.RepoURL ++ " " ++
  htmlEscape pkg.RepoURL ++ "/tree/master{/dir} " ++
  htmlEscape pkg.RepoURL ++ "/blob/master{/dir}/{file}#L{line}\">\n    <meta http-equiv=\"refresh\" content=\"0; url=" ++
  htmlEscape pkg.RepoURL ++
  "\">\n</head>\n<body>\n    Redirecting to <a href=\"" ++
  htmlEscape pkg.RepoURL ++ "\">" ++ htmlEscape pkg.RepoURL ++
  "</a>...\n</body>\n</html>"

/-- The conditional description block of the index-page template:
`\x7b\x7bif .Description\x7d\x7d ... \x7b\x7bend\x7d\x7d` renders its body
only when the description is non-empty (Go template truthiness for
strings). -/
def indexItemDescPart (r : PackageInfo) : String :=
  if r.Description != "" then
    "\n            <p>" ++ htmlEscape r.Description ++ "</p>\n            "
  else ""

/-- One `package-item` block of the index page, the body of the
template's range over the records. -/
def indexItemHTML (r : PackageInfo) : String :=
  "\n        <div class=\"package-item\">\n            <h3><a href=\"" ++
  htmlEscape r.RepoURL ++ "\">" ++ htmlEscape r.ImportPath ++
  "</a></h3>\n            " ++
  indexItemDescPart r ++
  "\n            <p><code>go get " ++ htmlEscape r.ImportPath ++
  "</code></p>\n        </div>\n        "

/-- The fixed head of the index page, up to the start of the record
range (the CSS braces are the literal characters `\x7b` and `\x7d`). -/
def indexHeader : String :=
  "<!DOCTYPE html>\n<html>\n<head>\n    <meta charset=\"utf-8\">\n    <title>pkg.blksails.net</title>\n    <style>\n        body \x7b\n            font-family: -apple-system, BlinkMacSystemFont, \x27Segoe UI\x27, Roboto, Oxygen, Ubuntu, Cantarell, \x27Open Sans\x27, \x27Helvetica Neue\x27, sans-serif;\n            max-width: 800px;\n            margin: 0 auto;\n            padding: 2rem;\n            line-height: 1.6;\n        \x7d\n        .package-list \x7b\n            margin-top: 2rem;\n        \x7d\n        .package-item \x7b\n            margin-bottom: 1.5rem;\n            padding: 1rem;\n            border: 1px solid #eee;\n            border-radius: 4px;\n        \x7d\n        .package-item h3 \x7b\n            margin: 0 0 0.5rem 0;\n        \x7d\n        .package-item p \x7b\n            margin: 0.5rem 0;\n            color: #666;\n        \x7d\n        code \x7b\n            background: #f5f5f5;\n            padding: 0.2rem 0.4rem;\n            border-radius: 3px;\n            font-size: 0.9em;\n        \x7d\n    </style>\n</head>\n<body>\n    <h1>pkg.blksails.net</h1>\n    <p>This is the package index for blksails Go packages.</p>\n    <p>To use these packages in your Go project, simply import them using the <code>pkg.blksails.net/...</code>\n        import path.</p>\n    \n    <div class=\"package-list\">\n        <h2>Available Packages</h2>\n        "

/-- The fixed tail of the index page, after the record range. -/
def indexFooter : String :=
  "\n    </div>\n</body>\n</html>"

/-- The document produced by `generateIndexHTML` in `main.go` from the
final `packages` slice. -/
def generateIndexHTMLDoc (packages : List PackageInfo) : String :=
  indexHeader ++ String.join (packages.map indexItemHTML) ++ indexFooter

/-- The environment of one run: the credential token, the result of the
initial repository-listing call, and the sink behaviour (whether writing
a given record's page, or the index page, succeeds). -/
structure Env where
  token : String
  listing : Except String (List RepoFetchResult)
  renderOk : PackageInfo → Bool
  indexOk : Bool

/-- The observable outcome of a completed run: the event trace, the final
`packages` slice, and the rendered index document. -/
structure RunResult where
  events : List Event
  packages : List PackageInfo
  indexDoc : String

/-- Model of `main` in `main.go`: abort with an error when the token is
absent or the initial listing call fails (the two `log.Fatal` sites,
lines 33-35 and 42-45); otherwise process every repository in order and
finally render the index page from the accumulated `packages` slice. -/
def run (env : Env) : Except String RunResult :=
  if env.token == "" then
    Except.error "GITHUB_TOKEN environment variable is required"
  else
    match env.listing with
    | Except.error e => Except.error ("Error listing repositories: " ++ e)
    | Except.ok repos =>
      let packages := collectPackages repos
      Except.ok
        { events := listEvents env.renderOk repos ++
            [Event.renderIndex packages env.indexOk]
          packages := packages
          indexDoc := generateIndexHTMLDoc packages }

/-- Modelled from the spec: the two-stage inclusion gate as worded in
sections 4.2 and 4.3 — primary language equals `"Go"` and the identifier
extracted from the manifest carries the `basePackage` prefix (no
identifier can be extracted when the manifest cannot be fetched or
decoded, so those cases fail the gate). Stated for comparison with the
code's `resolveRepo`, which additionally requires the root directory
listing to succeed. -/
def twoStageGate (rf : RepoFetchResult) : Bool :=
  rf.repo.language == "Go" &&
    (match rf.goModFetch with
     | some (some c) => goStartsWith (parseModuleName c) basePackage
     | _ => false)

/-- The root record a repository contributes to the Registry, when it
contributes one: the gate of `resolveRepo` restated record-first. -/
def rootRecordOf? (rf : RepoFetchResult) : Option PackageInfo :=
  match rf.contents, rf.goModFetch with
  | some _, some (some c) =>
    if rf.repo.language == "Go" && goStartsWith (parseModuleName c) basePackage then
      some ⟨parseModuleName c, rf.repo.htmlURL, rf.repo.description⟩
    else none
  | _, _ => none

/-- The three per-repository manifest failures named by the spec's
section 4.3: fetch failure, decode failure, and identifier prefix
mismatch. -/
def manifestFailure (rf : RepoFetchResult) : Bool :=
  match rf.goModFetch with
  | none => true
  | some none => true
  | some (some c) => !(goStartsWith (parseModuleName c) basePackage)

/-- Whether a content entry makes `main.go` emit a sub-package record: a
file entry whose name ends in `.go` and whose containing directory is not
the repository root. -/
def emitsSubRecord (c : ContentEntry) : Bool :=
  c.typ == "file" && goEndsWith c.name ".go" && !(filepathDir c.path == ".")

/-- Modelled from the spec: an index `package-item` block carrying no
description element at all (section 4.6: the description is omitted
entirely when empty, not rendered as an empty element). Stated for
comparison with the code's `indexItemHTML`. -/
def indexItemWithoutDescription (importPath url : String) : String :=
  "\n        <div class=\"package-item\">\n            <h3><a href=\"" ++
  htmlEscape url ++ "\">" ++ htmlEscape importPath ++
  "</a></h3>\n            " ++
  "\n            <p><code>go get " ++ htmlEscape importPath ++
  "</code></p>\n        </div>\n        "

/-- Manifest text of the worked scenario in the spec's section 8. -/
def fooManifest : String := "module pkg.blksails.net/foo\n\nrequire x\n"

/-- Fetch result of the scenario repository: a Go repository whose module
is `pkg.blksails.net/foo`, with files `main.go` and `sub/util.go`. -/
def repoFoo : RepoFetchResult :=
  { repo := { name := "foo", language := "Go",
              htmlURL := "https://github.com/blksails/foo", description := "d" }
    contents := some [ { name := "main.go", path := "main.go", typ := "file" },
                       { name := "util.go", path := "sub/util.go", typ := "file" } ]
    goModFetch := some (some fooManifest) }

/-- The scenario's root record. -/
def rootFoo : PackageInfo :=
  { ImportPath := "pkg.blksails.net/foo",
    RepoURL := "https://github.com/blksails/foo", Description := "d" }

/-- The scenario's sub-package record for directory `sub`. -/
def subFoo : PackageInfo :=
  { ImportPath := "pkg.blksails.net/foo/sub",
    RepoURL := "https://github.com/blksails/foo", Description := "d" }

/-- A qualifying Go repository whose manifest declares
`pkg.blksails.net/x`, with an empty file listing. -/
def repoDup : RepoFetchResult :=
  { repo := { name := "x", language := "Go",
              htmlURL := "https://github.com/blksails/x", description := "" }
    contents := some []
    goModFetch := some (some "module pkg.blksails.net/x\n") }

/-- The root record of `repoDup`. -/
def recDup : PackageInfo :=
  { ImportPath := "pkg.blksails.net/x",
    RepoURL := "https://github.com/blksails/x", Description := "" }

/-- A Go repository whose manifest fetch fails. -/
def repoNoManifest : RepoFetchResult :=
  { repo := { name := "m", language := "Go",
              htmlURL := "https://github.com/blksails/m", description := "" }
    contents := some []
    goModFetch := none }

/-- A Go repository with a well-prefixed manifest whose root directory
listing call fails. -/
def repoNoListing : RepoFetchResult :=
  { repo := { name := "l", language := "Go",
              htmlURL := "https://github.com/blksails/l", description := "" }
    contents := none
    goModFetch := some (some "module pkg.blksails.net/l\n") }

/-- An environment with the credential token absent. -/
def envNoToken : Env :=
  { token := "", listing := Except.ok [], renderOk := fun _ => true, indexOk := true }

theorem collectPackages_append (l1 l2 : List RepoFetchResult) :
    collectPackages (l1 ++ l2) = collectPackages l1 ++ collectPackages l2 := by
  induction l1 with
  | nil => simp [collectPackages]
  | cons rf rest ih => simp [collectPackages, ih]

theorem listEvents_append (renderOk : PackageInfo → Bool) (l1 l2 : List RepoFetchResult) :
    listEvents renderOk (l1 ++ l2) = listEvents renderOk l1 ++ listEvents renderOk l2 := by
  induction l1 with
  | nil => simp [listEvents]
  | cons rf rest ih => simp [listEvents, ih]

theorem insertedRecords_map_render (f : PackageInfo → Bool) (l : List PackageInfo) :
    insertedRecords (l.map fun r => Event.renderPage r (f r)) = [] := by
  induction l with
  | nil => rfl
  | cons r rest ih => simp [insertedRecords, ih]

theorem insertedRecords_repoEvents (renderOk : PackageInfo → Bool) (rf : RepoFetchResult) :
    insertedRecords (repoEvents renderOk rf) = repoInserts rf := by
  unfold repoEvents repoInserts
  cases h : resolveRepo rf with
  | none => rfl
  | some pr =>
    obtain ⟨m, cs⟩ := pr
    simp [insertedRecords, insertedRecords_map_render]

theorem repoInserts_eq_rootRecord (rf : RepoFetchResult) :
    repoInserts rf = (rootRecordOf? rf).toList := by
  obtain ⟨repo, contents, goMod⟩ := rf
  by_cases hL : repo.language == "Go" <;>
    cases contents <;> rcases goMod with _ | (_ | c) <;>
      simp [repoInserts, resolveRepo, rootRecordOf?, hL, bne]
  all_goals by_cases hP : goStartsWith (parseModuleName c) basePackage <;> simp [hP]

theorem collectPackages_eq_filterMap (repos : List RepoFetchResult) :
    collectPackages repos = repos.filterMap rootRecordOf? := by
  induction repos with
  | nil => rfl
  | cons rf rest ih =>
    simp only [collectPackages, List.filterMap_cons, repoInserts_eq_rootRecord, ih]
    cases rootRecordOf? rf <;> simp

theorem resolveRepo_none_of_manifestFailure (rf : RepoFetchResult)
    (h : manifestFailure rf = true) : resolveRepo rf = none := by
  obtain ⟨repo, contents, goMod⟩ := rf
  unfold manifestFailure at h
  rcases goMod with _ | (_ | c) <;> cases contents <;>
    by_cases hL : repo.language == "Go" <;> simp_all [resolveRepo, bne]

theorem subRecordOf_eq_some (id url desc : String) (c : ContentEntry)
    (h : emitsSubRecord c = true) :
    subRecordOf? id url desc c =
      some ⟨filepathJoin id (filepathDir c.path), url, desc⟩ := by
  unfold emitsSubRecord at h
  simp only [Bool.and_eq_true, Bool.not_eq_true'] at h
  obtain ⟨⟨h1, h2⟩, h3⟩ := h
  simp [subRecordOf?, h1, h2, h3]

theorem subRecordOf_eq_none (id url desc : String) (c : ContentEntry)
    (h : emitsSubRecord c = false) :
    subRecordOf? id url desc c = none := by
  unfold emitsSubRecord at h
  unfold subRecordOf?
  cases h1 : (c.typ == "file") <;> cases h2 : goEndsWith c.name ".go" <;>
    simp_all

theorem length_filterMap_subRecords (id url desc : String) (cs : List ContentEntry) :
    (cs.filterMap (subRecordOf? id url desc)).length =
      (cs.filter emitsSubRecord).length := by
  induction cs with
  | nil => rfl
  | cons c rest ih =>
    cases h : emitsSubRecord c with
    | true =>
      rw [List.filterMap_cons, subRecordOf_eq_some id url desc c h]
      simp [List.filter_cons, h, ih]
    | false =>
      rw [List.filterMap_cons, subRecordOf_eq_none id url desc c h]
      simp [List.filter_cons, h, ih]

theorem parseModuleNameLines_eq_find (lines : List String) :
    parseModuleNameLines lines =
      (match lines.find? (fun l => goStartsWith (goTrimSpace l) "module ") with
       | some line => goTrimSpace (goTrimLeading (goTrimSpace line) "module ")
       | none => "") := by
  induction lines with
  | nil => rfl
  | cons line rest ih =>
    by_cases h : goStartsWith (goTrimSpace line) "module " = true
    · simp [parseModuleNameLines, List.find?_cons_of_pos, h]
    · rw [parseModuleNameLines, if_neg h, List.find?_cons_of_neg _ (by simpa using h), ih]

/-- C1 fails on the code at a concrete input: for the scenario repository
(module `pkg.blksails.net/foo`, file `sub/util.go`) the sub-package record
is produced by path expansion and rendered, yet it is never inserted into
the Registry, whose only import path after the run is the root one — so
the index page cannot list `pkg.blksails.net/foo/sub`. -/
theorem c1_counterexample :
    subFoo ∈ repoRendered repoFoo ∧
    subFoo ∉ repoInserts repoFoo ∧
    subFoo ∉ collectPackages [repoFoo] ∧
    (collectPackages [repoFoo]).map PackageInfo.ImportPath = ["pkg.blksails.net/foo"] := by
  decide

/-- C1 (amended): the Orchestrator inserts only the root record of each
qualifying repository into the Registry — the Registry after the run is
exactly the sequence of root records of the qualifying repositories —
while sub-package records are rendered as import pages without being
inserted, so the index page lists only root import paths. -/
theorem c1_registry_holds_roots_only :
    (∀ repos : List RepoFetchResult,
      collectPackages repos = repos.filterMap rootRecordOf?) ∧
    rootFoo ∈ collectPackages [repoFoo] ∧
    subFoo ∈ repoRendered repoFoo ∧
    subFoo ∉ collectPackages [repoFoo] := by
  refine ⟨collectPackages_eq_filterMap, ?_, ?_, ?_⟩ <;> decide

/-- Witness for C1: the amended theorem applied to the singleton listing
holding the scenario repository. -/
theorem c1_witness :
    collectPackages [repoFoo] = [repoFoo].filterMap rootRecordOf? :=
  c1_registry_holds_roots_only.1 [repoFoo]

/-- C2 fails on the code at a concrete input: two qualifying repositories
declaring the same module identifier produce two Registry entries with
the same import path — the second insert appends instead of replacing,
so import paths are not unique within the Registry. -/
theorem c2_counterexample :
    collectPackages [repoDup, repoDup] = [recDup, recDup] ∧
    ¬ ((collectPackages [repoDup, repoDup]).map PackageInfo.ImportPath).Nodup := by
  decide

/-- C2 (amended): the Registry performs no deduplication — inserting a
record whose importPath already occurs in the Registry appends a second
entry at the end (no replacement, no error); duplicate page writes are
absorbed only by the filesystem's idempotence, not by the Registry. -/
theorem c2_duplicate_insert_appends (pre : List RepoFetchResult)
    (rf : RepoFetchResult) (root : PackageInfo)
    (h1 : repoInserts rf = [root])
    (h2 : root.ImportPath ∈ (collectPackages pre).map PackageInfo.ImportPath) :
    collectPackages (pre ++ [rf]) = collectPackages pre ++ [root] := by
  rw [collectPackages_append]
  simp [collectPackages, h1]

/-- Witness for C2: inserting `repoDup`'s root record a second time
appends it after the existing equal-importPath entry. -/
theorem c2_witness :
    collectPackages ([repoDup] ++ [repoDup]) = collectPackages [repoDup] ++ [recDup] :=
  c2_duplicate_insert_appends [repoDup] repoDup recDup (by decide) (by decide)

/-- C3: path expansion emits the root record first regardless of file
contents; it emits one further record per file entry of type `file` with
a `.go` name outside the root directory, with import path
`join(id, dir)` and the repository's URL and description; root-directory
files add nothing to the count; and two entries with the same containing
directory give rise to the same emitted record. -/
theorem c3_expand_spec (id url desc : String) (contents : List ContentEntry) :
    (expand id url desc contents).head? = some ⟨id, url, desc⟩ ∧
    (expand id url desc contents).length =
      1 + (contents.filter emitsSubRecord).length ∧
    (∀ c ∈ contents, emitsSubRecord c = true →
      (⟨filepathJoin id (filepathDir c.path), url, desc⟩ : PackageInfo) ∈
        expand id url desc contents) ∧
    (∀ c1 c2 : ContentEntry, emitsSubRecord c1 = true → emitsSubRecord c2 = true →
      filepathDir c1.path = filepathDir c2.path →
      subRecordOf? id url desc c1 = subRecordOf? id url desc c2) := by
  refine ⟨rfl, ?_, ?_, ?_⟩
  · simp [expand, length_filterMap_subRecords, Nat.add_comm]
  · intro c hc hemit
    have := subRecordOf_eq_some id url desc c hemit
    exact List.mem_cons_of_mem _ (List.mem_filterMap.mpr ⟨c, hc, this⟩)
  · intro c1 c2 h1 h2 hdir
    rw [subRecordOf_eq_some id url desc c1 h1, subRecordOf_eq_some id url desc c2 h2, hdir]

/-- Witness for C3: the expansion facts instantiated at the scenario
repository's module identifier and file listing. -/
theorem c3_witness :
    (expand "pkg.blksails.net/foo" "https://github.com/blksails/foo" "d"
        [ { name := "main.go", path := "main.go", typ := "file" },
          { name := "util.go", path := "sub/util.go", typ := "file" } ]).head? =
      some rootFoo ∧
    subFoo ∈ expand "pkg.blksails.net/foo" "https://github.com/blksails/foo" "d"
        [ { name := "main.go", path := "main.go", typ := "file" },
          { name := "util.go", path := "sub/util.go", typ := "file" } ] := by
  have h := c3_expand_spec "pkg.blksails.net/foo" "https://github.com/blksails/foo" "d"
      [ { name := "main.go", path := "main.go", typ := "file" },
        { name := "util.go", path := "sub/util.go", typ := "file" } ]
  refine ⟨h.1, ?_⟩
  have hm := h.2.2.1 { name := "util.go", path := "sub/util.go", typ := "file" }
      (by decide) (by decide)
  have hsub : subFoo =
      ({ ImportPath := filepathJoin "pkg.blksails.net/foo" (filepathDir "sub/util.go"),
         RepoURL := "https://github.com/blksails/foo", Description := "d" } : PackageInfo) := by
    decide
  rw [hsub]
  exact hm

/-- C4: `parseModuleName` returns the trimmed remainder, after stripping
the token `module` and its space, of the first line whose trimmed form
starts with that token, and the empty string — without failing — when no
such line exists, in particular on empty input. -/
theorem c4_parse_module_name :
    (∀ text : String,
      parseModuleName text =
        (match (goSplitNewline text).find?
            (fun l => goStartsWith (goTrimSpace l) "module ") with
         | some line => goTrimSpace (goTrimLeading (goTrimSpace line) "module ")
         | none => "")) ∧
    parseModuleName "" = "" := by
  exact ⟨fun text => parseModuleNameLines_eq_find (goSplitNewline text), rfl⟩

/-- C5 fails on the code at a concrete input: a repository whose language
is `"Go"` and whose manifest declares a well-prefixed identifier — so the
two-stage gate passes — contributes no records when the root
directory-listing call fails, refuting the stated `if and only if`. -/
theorem c5_counterexample :
    twoStageGate repoNoListing = true ∧
    repoInserts repoNoListing = [] ∧
    repoRendered repoNoListing = [] := by
  decide

/-- C5 (amended): a repository contributes records if and only if it
passes the two-stage inclusion gate (language exactly `"Go"`, manifest
identifier carrying the base package prefix, where an unfetchable or
undecodable manifest yields no identifier and fails the gate) AND its
root directory listing is fetched successfully; an identifier equal to
the prefix exactly passes, and the empty identifier fails. -/
theorem c5_gate_needs_listing (rf : RepoFetchResult) :
    (repoInserts rf ≠ [] ↔ twoStageGate rf = true ∧ rf.contents.isSome = true) ∧
    (repoRendered rf ≠ [] ↔ twoStageGate rf = true ∧ rf.contents.isSome = true) ∧
    goStartsWith basePackage basePackage = true ∧
    goStartsWith "" basePackage = false := by
  obtain ⟨repo, contents, goMod⟩ := rf
  refine ⟨?_, ?_, by decide, by decide⟩ <;>
  · by_cases hL : repo.language == "Go" <;>
      cases contents <;> rcases goMod with _ | (_ | c) <;>
        simp [repoInserts, repoRendered, resolveRepo, twoStageGate, expand, hL, bne] <;>
        by_cases hP : goStartsWith (parseModuleName c) basePackage <;> simp [hP]

/-- Witness for C5: the amended equivalence applied to the scenario
repository, whose listing succeeds and whose gate passes. -/
theorem c5_witness : repoInserts repoFoo ≠ [] :=
  (c5_gate_needs_listing repoFoo).1.mpr (by decide)

/-- C6: a repository whose manifest fetch fails, whose manifest cannot be
decoded, or whose identifier fails the prefix check emits zero records,
does not abort the run, and leaves the whole run — events, Registry and
index document — identical to a run whose listing omits it. -/
theorem c6_manifest_failure_skips (token : String) (hT : token ≠ "")
    (renderOk : PackageInfo → Bool) (indexOk : Bool)
    (pre post : List RepoFetchResult) (rf : RepoFetchResult)
    (hf : manifestFailure rf = true) :
    repoInserts rf = [] ∧ repoRendered rf = [] ∧
    run { token := token, listing := Except.ok (pre ++ rf :: post),
          renderOk := renderOk, indexOk := indexOk } =
      run { token := token, listing := Except.ok (pre ++ post),
            renderOk := renderOk, indexOk := indexOk } := by
  have hres := resolveRepo_none_of_manifestFailure rf hf
  have hIns : repoInserts rf = [] := by simp [repoInserts, hres]
  have hRen : repoRendered rf = [] := by simp [repoRendered, hres]
  have hEv : repoEvents renderOk rf = [] := by simp [repoEvents, hres]
  have hTok : (token == "") = false := by simpa using hT
  have hPack : collectPackages (pre ++ rf :: post) = collectPackages (pre ++ post) := by
    rw [collectPackages_append, collectPackages_append]
    simp [collectPackages, hIns]
  have hEvs : listEvents renderOk (pre ++ rf :: post) =
      listEvents renderOk (pre ++ post) := by
    rw [listEvents_append, listEvents_append]
    simp [listEvents, hEv]
  refine ⟨hIns, hRen, ?_⟩
  simp [run, hTok, hPack, hEvs]

/-- Witness for C6: a failed manifest fetch leaves the run equal to the
run on the empty listing. -/
theorem c6_witness :
    repoInserts repoNoManifest = [] ∧ repoRendered repoNoManifest = [] ∧
    run { token := "t", listing := Except.ok ([] ++ repoNoManifest :: []),
          renderOk := fun _ => true, indexOk := true } =
      run { token := "t", listing := Except.ok ([] ++ []),
            renderOk := fun _ => true, indexOk := true } :=
  c6_manifest_failure_skips "t" (by decide) (fun _ => true) true [] [] repoNoManifest rfl

/-- C7: the run aborts exactly when the credential token is absent or the
initial repository-listing call fails; with any other environment —
arbitrary per-repository fetch failures and arbitrary sink failures — it
runs to completion. -/
theorem c7_exactly_two_fatal (env : Env) :
    (∃ e, run env = Except.error e) ↔
      (env.token = "" ∨ ∃ e, env.listing = Except.error e) := by
  obtain ⟨token, listing, renderOk, indexOk⟩ := env
  by_cases hT : token = ""
  · subst hT
    simp [run]
  · cases listing with
    | error e => simp [run, hT]
    | ok repos => simp [run, hT]

/-- Witness for C7: the fatality equivalence applied to the environment
with the token absent. -/
theorem c7_witness : ∃ e, run envNoToken = Except.error e :=
  (c7_exactly_two_fatal envNoToken).mpr (Or.inl rfl)

/-- C8: both renderers are deterministic pure functions — equal record
inputs give byte-identical import-page documents, and equal record
sequences give byte-identical index documents. -/
theorem c8_renderers_deterministic :
    (∀ r1 r2 : PackageInfo, r1 = r2 → generateHTMLDoc r1 = generateHTMLDoc r2) ∧
    (∀ rs1 rs2 : List PackageInfo, rs1 = rs2 →
      generateIndexHTMLDoc rs1 = generateIndexHTMLDoc rs2) :=
  ⟨fun _ _ h => congrArg generateHTMLDoc h,
   fun _ _ h => congrArg generateIndexHTMLDoc h⟩

/-- Witness for C8: determinism applied at the scenario's records. -/
theorem c8_witness :
    generateHTMLDoc rootFoo = generateHTMLDoc rootFoo ∧
    generateIndexHTMLDoc [rootFoo, subFoo] = generateIndexHTMLDoc [rootFoo, subFoo] :=
  ⟨c8_renderers_deterministic.1 rootFoo rootFoo rfl,
   c8_renderers_deterministic.2 [rootFoo, subFoo] [rootFoo, subFoo] rfl⟩

/-- C9: for a qualifying repository the trace starts with the Registry
append of the root record, immediately followed by the rendering of
its import page; the appended records do not depend on whether rendering
succeeds; and whatever the sink does, the root record is in the final
Registry of any completed run whose listing holds the repository. -/
theorem c9_insert_precedes_render (renderOk renderOk2 : PackageInfo → Bool)
    (rf : RepoFetchResult) (m : String) (cs : List ContentEntry)
    (hLang : rf.repo.language = "Go") (hCont : rf.contents = some cs)
    (hMod : rf.goModFetch = some (some m))
    (hPre : goStartsWith (parseModuleName m) basePackage = true) :
    (repoEvents renderOk rf).head? =
      some (Event.insert ⟨parseModuleName m, rf.repo.htmlURL, rf.repo.description⟩) ∧
    (repoEvents renderOk rf).tail.head? =
      some (Event.renderPage ⟨parseModuleName m, rf.repo.htmlURL, rf.repo.description⟩
        (renderOk ⟨parseModuleName m, rf.repo.htmlURL, rf.repo.description⟩)) ∧
    insertedRecords (repoEvents renderOk rf) =
      insertedRecords (repoEvents renderOk2 rf) ∧
    (∀ (token : String) (pre post : List RepoFetchResult) (indexOk : Bool)
        (res : RunResult),
      token ≠ "" →
      run { token := token, listing := Except.ok (pre ++ rf :: post),
            renderOk := renderOk, indexOk := indexOk } = Except.ok res →
      (⟨parseModuleName m, rf.repo.htmlURL, rf.repo.description⟩ : PackageInfo) ∈
        res.packages) := by
  have hres : resolveRepo rf = some (parseModuleName m, cs) := by
    simp [resolveRepo, hLang, hCont, hMod, hPre, bne]
  have hIns : repoInserts rf =
      [⟨parseModuleName m, rf.repo.htmlURL, rf.repo.description⟩] := by
    simp [repoInserts, hres]
  refine ⟨?_, ?_, ?_, ?_⟩
  · simp [repoEvents, hres]
  · simp [repoEvents, hres, expand]
  · rw [insertedRecords_repoEvents, insertedRecords_repoEvents]
  · intro token pre post indexOk res hT hrun
    have hTok : (token == "") = false := by simpa using hT
    simp only [run, hTok, Bool.false_eq_true, if_false, Except.ok.injEq] at hrun
    have hmem : (⟨parseModuleName m, rf.repo.htmlURL, rf.repo.description⟩ : PackageInfo) ∈
        collectPackages (pre ++ rf :: post) := by
      rw [collectPackages_append]
      simp [collectPackages, hIns, List.mem_append]
    rw [← hrun]
    exact hmem

/-- Witness for C9: the trace facts at the scenario repository, with a
sink that fails every page write on one side and succeeds on the other. -/
theorem c9_witness :
    (repoEvents (fun _ => false) repoFoo).head? =
      some (Event.insert ⟨parseModuleName fooManifest, repoFoo.repo.htmlURL,
        repoFoo.repo.description⟩) ∧
    insertedRecords (repoEvents (fun _ => false) repoFoo) =
      insertedRecords (repoEvents (fun _ => true) repoFoo) := by
  have h := c9_insert_precedes_render (fun _ => false) (fun _ => true) repoFoo fooManifest
      [ { name := "main.go", path := "main.go", typ := "file" },
        { name := "util.go", path := "sub/util.go", typ := "file" } ]
      rfl rfl rfl (by decide)
  exact ⟨h.1, h.2.2.1⟩

/-- C10: the import-page document reads only the record's import path and
repository URL — records agreeing on those two fields render to identical
bytes whatever their descriptions — and in the index page an empty
description is omitted entirely: the rendered item equals one holding no
description element at all. -/
theorem c10_import_page_ignores_description :
    (∀ r1 r2 : PackageInfo, r1.ImportPath = r2.ImportPath →
      r1.RepoURL = r2.RepoURL → generateHTMLDoc r1 = generateHTMLDoc r2) ∧
    (∀ r : PackageInfo, r.Description = "" →
      indexItemHTML r = indexItemWithoutDescription r.ImportPath r.RepoURL) := by
  constructor
  · intro r1 r2 h1 h2
    simp [generateHTMLDoc, h1, h2]
  · intro r h
    simp [indexItemHTML, indexItemWithoutDescription, indexItemDescPart, h,
      String.append_empty]

/-- Witness for C10: two records differing only in description render the
same import page, and an empty-description record's index item carries no
description element. -/
theorem c10_witness :
    generateHTMLDoc ⟨"pkg.blksails.net/foo", "https://github.com/blksails/foo", "d"⟩ =
      generateHTMLDoc ⟨"pkg.blksails.net/foo", "https://github.com/blksails/foo", "other"⟩ ∧
    indexItemHTML ⟨"pkg.blksails.net/x", "https://github.com/blksails/x", ""⟩ =
      indexItemWithoutDescription "pkg.blksails.net/x" "https://github.com/blksails/x" :=
  ⟨c10_import_page_ignores_description.1 _ _ rfl rfl,
   c10_import_page_ignores_description.2 _ rfl⟩
